import Mathlib

/-!
Verification development for the a2amarketplace multi-agent backend.

Each Python function relevant to the frozen claims is shallowly embedded as an
executable Lean definition; external collaborators (LLM oracle, blockchain SDK,
SQL store, HTTP transport) are modelled as explicit oracle parameters, as the
spec treats them as interface boundaries.  Rational numbers stand in for Python
floats, association lists for Python dicts.
-/

/- ==========================================================================
   Section 1: PaymentAgent._validate_address_format
   (src/a2abackend/agents/payment_agent/agent.py, lines 466-478)
   ========================================================================== -/

/-- ASCII lowering of a string, modelling Python `str.lower()` on the ASCII
network names used by the agent (`String.toLower` of core is equivalent but
does not reduce in the kernel). -/
def lowerStr (s : String) : String := ⟨s.data.map Char.toLower⟩

/-- Hex-digit character class `[0-9a-fA-F]` of the Ethereum/Polygon pattern. -/
def isHexChar (c : Char) : Bool :=
  c.isDigit || ('a' ≤ c && c ≤ 'f') || ('A' ≤ c && c ≤ 'F')

/-- Greedy `\d+` of the Hedera regex: consume one or more leading digits,
returning the rest of the input, or `none` when no digit leads. -/
def chompDigits1 : List Char → Option (List Char)
  | [] => none
  | c :: rest => if c.isDigit then some (rest.dropWhile Char.isDigit) else none

/-- A literal `\.` of the Hedera regex: consume one leading dot. -/
def chompDot : List Char → Option (List Char)
  | [] => none
  | c :: rest => if c = '.' then some rest else none

/-- The anchored regex `^\d+\.\d+\.\d+$` used for the Hedera address family.
`\d+` is greedy and `.` is not a digit, so a linear scan without backtracking
is an exact rendering of `re.match` with this pattern. -/
def hederaMatch (s : List Char) : Bool :=
  match ((((chompDigits1 s).bind chompDot).bind chompDigits1).bind chompDot).bind
      chompDigits1 with
  | some rest => rest.isEmpty
  | none => false

/-- The anchored regex `^0x[a-fA-F0-9]{40}$` used for Ethereum and Polygon. -/
def ethMatch : List Char → Bool
  | c1 :: c2 :: rest => c1 == '0' && c2 == 'x' && rest.length == 40 && rest.all isHexChar
  | _ => false

/-- `PaymentAgent._validate_address_format`: dispatch on the lower-cased
network name, returning `false` for any other network. -/
def validate_address_format (address network : String) : Bool :=
  if lowerStr network == "hedera" then
    hederaMatch address.data
  else if lowerStr network == "ethereum" || lowerStr network == "polygon" then
    ethMatch address.data
  else false

/-- Spec-side reading of `\d+`: a nonempty run of decimal digits. -/
def DigitRun (d : List Char) : Prop := d ≠ [] ∧ ∀ c ∈ d, c.isDigit

/-- Spec-side reading of the Hedera family: three dot-separated integers. -/
def ThreeDotInts (s : List Char) : Prop :=
  ∃ d1 d2 d3, DigitRun d1 ∧ DigitRun d2 ∧ DigitRun d3 ∧
    s = d1 ++ '.' :: d2 ++ '.' :: d3

/-- Spec-side reading of the Ethereum/Polygon family: `0x` then 40 hex chars. -/
def Hex40 (s : List Char) : Prop :=
  ∃ t, s = '0' :: 'x' :: t ∧ t.length = 40 ∧ ∀ c ∈ t, isHexChar c = true

theorem dropWhile_append_all {p : Char → Bool} (d r : List Char)
    (h : ∀ c ∈ d, p c) : (d ++ r).dropWhile p = r.dropWhile p := by
  induction d with
  | nil => rfl
  | cons c d ih =>
    have hc : p c := h c (List.mem_cons_self c d)
    simp only [List.cons_append, List.dropWhile, hc]
    exact ih (fun x hx => h x (List.mem_cons_of_mem c hx))

theorem chompDigits1_run (d r : List Char) (hd : DigitRun d)
    (hr : r.dropWhile Char.isDigit = r) :
    chompDigits1 (d ++ r) = some r := by
  obtain ⟨hne, hall⟩ := hd
  match d, hne with
  | c :: d, _ =>
    have hc : c.isDigit := hall c (List.mem_cons_self c d)
    simp only [List.cons_append, chompDigits1, hc, if_pos]
    rw [dropWhile_append_all d r (fun x hx => hall x (List.mem_cons_of_mem c hx)), hr]

theorem chompDigits1_sound (s r : List Char) (h : chompDigits1 s = some r) :
    ∃ d, DigitRun d ∧ s = d ++ r := by
  match s with
  | [] => simp [chompDigits1] at h
  | c :: rest =>
    by_cases hc : c.isDigit
    · simp only [chompDigits1, hc, if_pos, Option.some.injEq] at h
      refine ⟨c :: rest.takeWhile Char.isDigit, ⟨List.cons_ne_nil _ _, ?_⟩, ?_⟩
      · intro x hx
        rcases List.mem_cons.mp hx with hx | hx
        · exact hx ▸ hc
        · exact List.mem_takeWhile_imp hx
      · simp only [List.cons_append, List.cons.injEq, true_and]
        rw [← h, List.takeWhile_append_dropWhile]
    · simp [chompDigits1, hc] at h

theorem chompDot_sound (s r : List Char) (h : chompDot s = some r) :
    s = '.' :: r := by
  match s with
  | [] => simp [chompDot] at h
  | c :: rest =>
    by_cases hc : c = '.'
    · simp only [chompDot, hc, if_pos, Option.some.injEq] at h
      rw [hc, h]
    · simp [chompDot, hc] at h

theorem dropWhile_dot (r : List Char) :
    (('.' :: r) : List Char).dropWhile Char.isDigit = '.' :: r := by
  simp [List.dropWhile]

/-- The regex matcher accepts exactly the strings made of three dot-separated
nonempty digit runs. -/
theorem hederaMatch_iff (s : List Char) :
    hederaMatch s = true ↔ ThreeDotInts s := by
  constructor
  · intro h
    unfold hederaMatch at h
    cases h1 : chompDigits1 s with
    | none => simp [h1] at h
    | some s1 =>
      simp only [h1, Option.some_bind] at h
      cases h2 : chompDot s1 with
      | none => simp [h2] at h
      | some s2 =>
        simp only [h2, Option.some_bind] at h
        cases h3 : chompDigits1 s2 with
        | none => simp [h3] at h
        | some s3 =>
          simp only [h3, Option.some_bind] at h
          cases h4 : chompDot s3 with
          | none => simp [h4] at h
          | some s4 =>
            simp only [h4, Option.some_bind] at h
            cases h5 : chompDigits1 s4 with
            | none => simp [h5] at h
            | some s5 =>
              simp only [h5] at h
              have hs5 : s5 = [] := by simpa [List.isEmpty_iff] using h
              obtain ⟨d1, hd1, e1⟩ := chompDigits1_sound s s1 h1
              obtain ⟨d2, hd2, e2⟩ := chompDigits1_sound s2 s3 h3
              obtain ⟨d3, hd3, e3⟩ := chompDigits1_sound s4 s5 h5
              refine ⟨d1, d2, d3, hd1, hd2, hd3, ?_⟩
              rw [e1, chompDot_sound s1 s2 h2, e2, chompDot_sound s3 s4 h4, e3, hs5]
              simp
  · rintro ⟨d1, d2, d3, hd1, hd2, hd3, rfl⟩
    unfold hederaMatch
    have h1 : chompDigits1 (d1 ++ '.' :: d2 ++ '.' :: d3)
        = some ('.' :: (d2 ++ '.' :: d3)) := by
      have := chompDigits1_run d1 ('.' :: (d2 ++ '.' :: d3)) hd1 (dropWhile_dot _)
      simpa using this
    have h3 : chompDigits1 (d2 ++ '.' :: d3) = some ('.' :: d3) :=
      chompDigits1_run d2 ('.' :: d3) hd2 (dropWhile_dot _)
    have h5 : chompDigits1 d3 = some [] := by
      have := chompDigits1_run d3 [] hd3 (by rfl)
      simpa using this
    have hdot : ∀ r : List Char, chompDot ('.' :: r) = some r := fun r => rfl
    rw [h1]
    simp only [Option.some_bind, hdot, h3, h5]
    rfl

/-- The Ethereum matcher accepts exactly `0x` followed by 40 hex characters. -/
theorem ethMatch_iff (s : List Char) : ethMatch s = true ↔ Hex40 s := by
  constructor
  · intro h
    match s with
    | [] => simp [ethMatch] at h
    | [c] => simp [ethMatch] at h
    | c1 :: c2 :: rest =>
      simp only [ethMatch, Bool.and_eq_true, beq_iff_eq, List.all_eq_true] at h
      obtain ⟨⟨⟨rfl, rfl⟩, hlen⟩, hall⟩ := h
      exact ⟨rest, rfl, hlen, hall⟩
  · rintro ⟨t, rfl, hlen, hall⟩
    have hx : t.all isHexChar = true := List.all_eq_true.mpr hall
    simp [ethMatch, hlen, hx]

/-- C5: the address validator accepts (a, n) iff n lower-cases to "hedera" and
a matches the three-dot-separated-integers pattern, or n lower-cases to
"ethereum" or "polygon" and a matches the 0x-plus-40-hex pattern; every other
network name or pattern failure is rejected.  The four concrete vectors of the
spec are included. -/
theorem validate_address_format_iff :
    (∀ a n : String, validate_address_format a n = true ↔
      ((lowerStr n = "hedera" ∧ ThreeDotInts a.data) ∨
       ((lowerStr n = "ethereum" ∨ lowerStr n = "polygon") ∧ Hex40 a.data))) ∧
    validate_address_format "0.0.123456" "hedera" = true ∧
    validate_address_format "0xaaaaaaaaaaaaaaaaaaaaaaaaaaaaaaaaaaaaaaaa" "ethereum" = true ∧
    validate_address_format "0.0.123456" "ethereum" = false ∧
    validate_address_format "not-an-address" "hedera" = false := by
  refine ⟨?_, by decide, by decide, by decide, by decide⟩
  intro a n
  unfold validate_address_format
  by_cases h1 : lowerStr n = "hedera"
  · rw [h1]
    simp only [beq_self_eq_true, if_true, hederaMatch_iff]
    constructor
    · intro h
      exact Or.inl ⟨by trivial, h⟩
    · rintro (⟨_, h⟩ | ⟨hn, _⟩)
      · exact h
      · rcases hn with hn | hn <;> exact absurd hn (by decide)
  · have h1' : (lowerStr n == "hedera") = false := by
      simpa [beq_eq_false_iff_ne] using h1
    rw [h1']
    by_cases h2 : lowerStr n = "ethereum" ∨ lowerStr n = "polygon"
    · have h2' : (lowerStr n == "ethereum" || lowerStr n == "polygon") = true := by
        rcases h2 with h | h <;> simp [h]
      rw [h2']
      simp only [Bool.false_eq_true, if_false, if_true, ethMatch_iff]
      constructor
      · intro h
        exact Or.inr ⟨h2, h⟩
      · rintro (⟨hn, _⟩ | ⟨_, h⟩)
        · exact absurd hn h1
        · exact h
    · have h2' : (lowerStr n == "ethereum" || lowerStr n == "polygon") = false := by
        push_neg at h2
        simp [h2.1, h2.2]
      rw [h2']
      simp only [Bool.false_eq_true, if_false]
      constructor
      · intro h
        exact absurd h (by simp)
      · rintro (⟨hn, _⟩ | ⟨hn, _⟩)
        · exact absurd hn h1
        · exact absurd hn h2

/-- Witness for C5: instantiating the equivalence at the concrete hedera
vector produces the structural decomposition. -/
theorem validate_address_format_iff_witness :
    ThreeDotInts ("0.0.123456".data) := by
  have h := (validate_address_format_iff.1 "0.0.123456" "hedera").mp (by decide)
  rcases h with ⟨_, h⟩ | ⟨hn, _⟩
  · exact h
  · rcases hn with hn | hn <;> exact absurd hn (by decide)

/- ==========================================================================
   Section 2: CarbonCreditAgent._calculate_best_deal
   (src/a2abackend/agents/carbon_credit_agent/agent.py, lines 272-348)
   ========================================================================== -/

/-- One marketplace offer row as fetched by `_fetch_carbon_credit_offers`
(`offer_price` may be NULL in the database, hence the option). -/
structure Offer where
  companyId : Nat
  companyName : String
  walletAddress : String
  currentCredit : ℚ
  offerPrice : Option ℚ
  totalCredit : ℚ
  soldCredit : ℚ
deriving DecidableEq

/-- Price of an offer inside the selection loop, where the None-priced offers
have already been filtered out. -/
def offerPriceD (o : Offer) : ℚ := o.offerPrice.getD 0

/-- One entry of `best_offers`: the offer dict extended with
`credits_to_purchase` and `total_cost`. -/
structure Allocation where
  offer : Offer
  creditsToPurchase : ℚ
  totalCost : ℚ
deriving DecidableEq

/-- The selection loop of `_calculate_best_deal`: walk the price-sorted
offers, stop once the remaining request is ≤ 0, take
`min(remaining, current_credit)` from each offer, skipping offers from which
nothing positive can be taken.  Returns (best_offers, total_credits_found,
total_cost). -/
def selectOffers : List Offer → ℚ → (List Allocation × ℚ × ℚ)
  | [], _ => ([], 0, 0)
  | o :: rest, remaining =>
    if remaining ≤ 0 then ([], 0, 0)
    else
      let take := min remaining o.currentCredit
      if 0 < take then
        let cost := take * offerPriceD o
        let out := selectOffers rest (remaining - take)
        (⟨o, take, cost⟩ :: out.1, take + out.2.1, cost + out.2.2)
      else
        selectOffers rest remaining

/-- Two-decimal rendering of a rational, modelling Python float formatting
with `"{:.2f}"` (Python rounds half-to-even; the two agree on every value
appearing in this development, none of which is a half-cent tie). -/
def fmt2 (q : ℚ) : String :=
  let cents : ℤ := round (q * 100)
  let n := cents.natAbs
  let whole := n / 100
  let frac := n % 100
  (if cents < 0 then "-" else "") ++ toString whole ++ "." ++
    (if frac < 10 then "0" ++ toString frac else toString frac)

/-- `min(offer['offer_price'] for offer in best_offers)` of the pricing
recommendation (only evaluated when `best_offers` is nonempty). -/
def minimumPrice (l : List Allocation) : ℚ :=
  match l.map (fun a => offerPriceD a.offer) with
  | [] => 0
  | p :: ps => ps.foldl min p

/-- Result dict of `_calculate_best_deal`: either the no-offers failure dict
or the full deal dict. -/
inductive DealResult where
  | noOffers (status message : String) (totalCreditsFound : ℚ) (requestedCredits : ℤ)
  | deal (status : String) (totalCreditsFound : ℚ) (requestedCredits : ℤ)
      (bestOffers : List Allocation) (averagePrice totalCost : ℚ)
      (recommendations : List String)
deriving DecidableEq

/-- `total_credits_found` of either result shape. -/
def DealResult.totalFound : DealResult → ℚ
  | .noOffers _ _ t _ => t
  | .deal _ t _ _ _ _ _ => t

/-- `CarbonCreditAgent._calculate_best_deal`: sort the non-NULL-priced offers
ascending by price, select greedily, then assemble totals, average price and
recommendation strings (numeric rendering of the f-strings is modelled by
`toString`/`fmt2` on rationals). -/
def calculate_best_deal (offers : List Offer) (requestedCredits : ℤ) : DealResult :=
  if offers.isEmpty then
    .noOffers "failed" "No carbon credit offers found" 0 requestedCredits
  else
    let sortedOffers := List.insertionSort (fun a b => offerPriceD a ≤ offerPriceD b)
      (offers.filter (fun o => o.offerPrice.isSome))
    let sel := selectOffers sortedOffers (requestedCredits : ℚ)
    let bestOffers := sel.1
    let totalCreditsFound := sel.2.1
    let totalCost := sel.2.2
    let averagePrice := if 0 < totalCreditsFound then totalCost / totalCreditsFound else 0
    let recs1 : List String :=
      if totalCreditsFound < (requestedCredits : ℚ) then
        ["Only found " ++ toString totalCreditsFound ++ " credits out of " ++
          toString requestedCredits ++
          " requested. Consider increasing your maximum price per credit."]
      else []
    let recs2 : List String :=
      if 0 < averagePrice then
        ["Average price: $" ++ fmt2 averagePrice ++ " per credit. Best deal: $" ++
          fmt2 (minimumPrice bestOffers) ++ " per credit."]
      else []
    let recs3 : List String :=
      if 1 < bestOffers.length then
        ["Diversified across " ++ toString bestOffers.length ++
          " companies for risk mitigation."]
      else []
    .deal (if (requestedCredits : ℚ) * 0.8 ≤ totalCreditsFound then "success" else "partial")
      totalCreditsFound requestedCredits bestOffers averagePrice totalCost
      (recs1 ++ recs2 ++ recs3)

theorem selectOffers_total (l : List Offer) (r : ℚ) (hr : 0 ≤ r)
    (h : ∀ o ∈ l, 0 ≤ o.currentCredit) :
    (selectOffers l r).2.1 = min r ((l.map (fun o => o.currentCredit)).sum) := by
  induction l generalizing r with
  | nil => simp [selectOffers, min_eq_right hr]
  | cons o rest ih =>
    have hcc : 0 ≤ o.currentCredit := h o (List.mem_cons_self o rest)
    have hrest : ∀ x ∈ rest, 0 ≤ x.currentCredit :=
      fun x hx => h x (List.mem_cons_of_mem o hx)
    have hsum : 0 ≤ (rest.map (fun x => x.currentCredit)).sum :=
      List.sum_nonneg (by
        intro x hx
        obtain ⟨y, hy, rfl⟩ := List.mem_map.mp hx
        exact hrest y hy)
    have hsum0 : 0 ≤ ((o :: rest).map (fun x => x.currentCredit)).sum :=
      List.sum_nonneg (by
        intro x hx
        obtain ⟨y, hy, rfl⟩ := List.mem_map.mp hx
        exact h y hy)
    by_cases hr0 : r ≤ 0
    · have hr' : r = 0 := le_antisymm hr0 hr
      subst hr'
      simp only [selectOffers, le_refl, if_pos]
      rw [eq_comm, min_eq_left hsum0]
    · push_neg at hr0
      simp only [selectOffers, if_neg (not_le.mpr hr0)]
      by_cases ht : 0 < min r o.currentCredit
      · simp only [if_pos ht]
        have htake_le : min r o.currentCredit ≤ r := min_le_left _ _
        have ihr := ih (r - min r o.currentCredit) (by linarith) hrest
        simp only [List.map_cons, List.sum_cons]
        rw [ihr]
        rcases le_total o.currentCredit r with hor | hor
        · rw [min_eq_right hor]
          rw [← min_add_add_left o.currentCredit (r - o.currentCredit)
            ((rest.map (fun x => x.currentCredit)).sum)]
          congr 1
          ring
        · rw [min_eq_left hor]
          have : r - r = 0 := by ring
          rw [this, min_eq_left hsum]
          rw [eq_comm, min_eq_left (by linarith), add_zero]
      · simp only [if_neg ht]
        push_neg at ht
        have hcc0 : o.currentCredit = 0 := by
          rcases le_total r o.currentCredit with hor | hor
          · have := min_eq_left hor ▸ ht
            linarith
          · have := min_eq_right hor ▸ ht
            linarith
        rw [ih r hr hrest]
        simp [hcc0]

/-- The first offer of the worked allocation example: price 10, quantity 40. -/
def offerA : Offer := ⟨1, "CompanyA", "0.0.1001", 40, some 10, 40, 0⟩

/-- The second offer of the worked allocation example: price 12, quantity 100. -/
def offerB : Offer := ⟨2, "CompanyB", "0.0.1002", 100, some 12, 100, 0⟩

/-- C6: the allocator selects offers greedily in ascending price order,
taking min(available, remaining) from each until the request is filled:
for offers [(price 10, qty 40), (price 12, qty 100)] and a request of 60 it
allocates 40 then 20, with total cost 640 and average price 640/60 = 32/3;
in general the total allocated equals min(request, total priced supply). -/
theorem calculate_best_deal_greedy :
    (calculate_best_deal [offerA, offerB] 60 =
      .deal "success" 60 60 [⟨offerA, 40, 400⟩, ⟨offerB, 20, 240⟩] (32/3) 640
        ["Average price: $10.67 per credit. Best deal: $10.00 per credit.",
         "Diversified across 2 companies for risk mitigation."]) ∧
    (∀ (offers : List Offer) (req : ℤ), 0 ≤ req →
      (∀ o ∈ offers, 0 ≤ o.currentCredit) →
      (calculate_best_deal offers req).totalFound
        = min (req : ℚ)
            (((offers.filter (fun o => o.offerPrice.isSome)).map
              (fun o => o.currentCredit)).sum)) := by
  constructor
  · have hsel : selectOffers (List.insertionSort (fun a b => offerPriceD a ≤ offerPriceD b)
        ([offerA, offerB].filter (fun o => o.offerPrice.isSome))) ((60:ℤ) : ℚ)
        = ([⟨offerA, 40, 400⟩, ⟨offerB, 20, 240⟩], 60, 640) := by
      norm_num [List.insertionSort, List.orderedInsert, selectOffers, offerA, offerB,
        offerPriceD]
    simp only [calculate_best_deal, List.isEmpty_cons, Bool.false_eq_true, if_false, hsel]
    norm_num [minimumPrice, offerA, offerB, offerPriceD]
    constructor
    · norm_num [fmt2, round_eq]
      decide
    · decide
  · intro offers req hreq hnn
    by_cases he : offers.isEmpty
    · have : offers = [] := List.isEmpty_iff.mp he
      subst this
      simp only [calculate_best_deal, List.isEmpty_nil, if_pos, DealResult.totalFound,
        List.filter_nil, List.map_nil, List.sum_nil]
      rw [eq_comm, min_eq_right (by exact_mod_cast hreq)]
    · simp only [calculate_best_deal, he, Bool.false_eq_true, if_false, DealResult.totalFound]
      have hperm : (List.insertionSort (fun a b => offerPriceD a ≤ offerPriceD b)
          (offers.filter (fun o => o.offerPrice.isSome))).Perm
          (offers.filter (fun o => o.offerPrice.isSome)) :=
        List.perm_insertionSort _ _
      have hnn' : ∀ o ∈ List.insertionSort (fun a b => offerPriceD a ≤ offerPriceD b)
          (offers.filter (fun o => o.offerPrice.isSome)), 0 ≤ o.currentCredit := by
        intro o ho
        exact hnn o (List.mem_of_mem_filter (hperm.mem_iff.mp ho))
      rw [selectOffers_total _ _ (by exact_mod_cast hreq) hnn']
      congr 1
      exact (hperm.map (fun o => o.currentCredit)).sum_eq

/-- Witness for C6: the general total-allocation law applied to the two
concrete offers of the example. -/
theorem calculate_best_deal_greedy_witness :
    (calculate_best_deal [offerA, offerB] 60).totalFound
      = min (60 : ℚ)
          ((([offerA, offerB].filter (fun o => o.offerPrice.isSome)).map
            (fun o => o.currentCredit)).sum) :=
  calculate_best_deal_greedy.2 [offerA, offerB] 60 (by decide) (by decide)

/- ==========================================================================
   Section 3: PaymentAgent.buy_carbon_credits
   (src/a2abackend/agents/payment_agent/agent.py, lines 357-464)
   ========================================================================== -/

/-- A resolved company row of the marketplace query
(company_id, company_name, wallet_address, offer_price). -/
structure CompanyRow where
  companyId : ℤ
  companyName : String
  walletAddress : String
  offerPrice : ℚ
deriving DecidableEq

/-- Outcome of the company-resolution block (the inner try around the
database reads and name matching): the block either raises, or produces the
final `rows` list. -/
inductive ResolveOutcome where
  | raised (e : String)
  | found (rows : List CompanyRow)
deriving DecidableEq

/-- The dict returned by `_execute_hedera_transfer`, abstracted to the two
keys `buy_carbon_credits` reads: `payment_result.get("success", False)` and
`payment_result.get("transaction_id", memo)`. -/
structure PaymentReply where
  success : Bool
  transactionId : Option String
deriving DecidableEq

/-- Outcome of the `purchase_credits` call: either the returned
(success, message) pair or a raised exception. -/
inductive RecordOutcome where
  | returned (success : Bool) (message : String)
  | raised (e : String)
deriving DecidableEq

/-- The external collaborators of one `buy_carbon_credits` run. -/
structure BuyEnv where
  resolve : ResolveOutcome
  pay : PaymentReply
  record : RecordOutcome
  buyer : String
deriving DecidableEq

/-- The result dict of `buy_carbon_credits` (keys absent from a branch are
`none`). -/
structure BuyResult where
  status : String
  message : String
  transactionId : Option String
  companyId : Option ℤ
  wallet : Option String
  pricePerCredit : Option ℚ
  amount : Option ℚ
  totalHbar : Option ℚ
deriving DecidableEq

/-- One `purchase_credits(company_id, user_account, amount, payment_tx_id)`
invocation recorded by the run. -/
structure RecordCall where
  companyId : ℤ
  userAccount : String
  amount : ℚ
  paymentTxId : String
deriving DecidableEq

/-- The traceability memo
`f"Carbon credits purchase company={comp_id} credits={amount}"`
(`toString` renders the numbers). -/
def mkMemo (compId : ℤ) (amount : ℚ) : String :=
  "Carbon credits purchase company=" ++ toString compId ++ " credits=" ++ toString amount

/-- `PaymentAgent.buy_carbon_credits`: resolve the company, pay
`amount * offer_price` HBAR with the memo, then record the purchase with
correlation id `payment_result.get("transaction_id", memo)`.  The second
component logs the `purchase_credits` calls made. -/
def buy_carbon_credits (env : BuyEnv) (amount : ℚ) : BuyResult × List RecordCall :=
  match env.resolve with
  | .raised _ =>
    (⟨"failed", "Could not get company details", none, none, none, none, none, none⟩, [])
  | .found [] =>
    (⟨"failed", "No company found", none, none, none, none, none, none⟩, [])
  | .found (row :: _) =>
    let totalHbar := amount * row.offerPrice
    let memo := mkMemo row.companyId amount
    if env.pay.success then
      let txId := env.pay.transactionId.getD memo
      let call : RecordCall := ⟨row.companyId, env.buyer, amount, txId⟩
      match env.record with
      | .returned true _ =>
        (⟨"success",
          "Successfully purchased " ++ toString amount ++ " carbon credits for "
            ++ toString totalHbar ++ " HBAR",
          some txId, some row.companyId, some row.walletAddress, some row.offerPrice,
          some amount, some totalHbar⟩, [call])
      | .returned false m =>
        (⟨"failed", "Database recording failed: " ++ m,
          none, none, none, none, none, none⟩, [call])
      | .raised e =>
        (⟨"failed", "Database recording failed: " ++ e,
          none, none, none, none, none, none⟩, [call])
    else
      (⟨"failed", "Payment failed", none, none, none, none, none, none⟩, [])

/-- The funds-moving step reported success: the company resolution produced a
row and the payment reply carries success. -/
def paymentCompleted (env : BuyEnv) : Prop :=
  (∃ row rs, env.resolve = .found (row :: rs)) ∧ env.pay.success = true

/-- The ledger-recording step failed: `purchase_credits` returned failure or
raised. -/
def recordingFailed (env : BuyEnv) : Prop :=
  (∃ m, env.record = .returned false m) ∨ ∃ e, env.record = .raised e

/-- First character of a string, used to tell the outcome messages apart. -/
def strHead (s : String) : Option Char := s.data.head?

theorem strHead_append (a b : String) (c : Char) (rest : List Char)
    (ha : a.data = c :: rest) : strHead (a ++ b) = some c := by
  unfold strHead
  rw [String.data_append, ha]
  rfl

theorem ne_prefix_of_head {x pre : String} (c d : Char) (restx restp : List Char)
    (hx : x.data = c :: restx) (hp : pre.data = d :: restp) (hcd : c ≠ d) :
    ∀ m, x ≠ pre ++ m := by
  intro m h
  have h1 : strHead x = some c := by unfold strHead; rw [hx]; rfl
  have h2 : strHead (pre ++ m) = some d := strHead_append pre m d restp hp
  rw [h, h2] at h1
  exact hcd (Option.some.inj h1).symm

/-- C1: in the buy-then-record workflow the final result carries the
"payment completed, recording failed" partial-failure state exactly when the
payment reported success and the recording step failed; that state is never
one of the generic failure messages of the other branches. -/
theorem buy_partial_failure_surfaced (env : BuyEnv) (amount : ℚ) :
    ((paymentCompleted env ∧ recordingFailed env) ↔
      ((buy_carbon_credits env amount).1.status = "failed" ∧
        ∃ m, (buy_carbon_credits env amount).1.message
          = "Database recording failed: " ++ m)) ∧
    (paymentCompleted env ∧ recordingFailed env →
      (buy_carbon_credits env amount).1.message ≠ "Payment failed" ∧
      (buy_carbon_credits env amount).1.message ≠ "No company found" ∧
      (buy_carbon_credits env amount).1.message ≠ "Could not get company details") := by
  obtain ⟨res, pay, record, buyer⟩ := env
  have hpre : ("Database recording failed: " : String).data
      = 'D' :: "atabase recording failed: ".data := rfl
  cases res with
  | raised e =>
    constructor
    · constructor
      · rintro ⟨⟨⟨row, rs, hrow⟩, _⟩, _⟩
        exact absurd hrow (by simp)
      · rintro ⟨_, m, hm⟩
        exact absurd hm
          (ne_prefix_of_head 'C' 'D' _ _ rfl hpre (by decide) m)
    · rintro ⟨⟨⟨row, rs, hrow⟩, _⟩, _⟩
      exact absurd hrow (by simp)
  | found rows =>
    cases rows with
    | nil =>
      constructor
      · constructor
        · rintro ⟨⟨⟨row, rs, hrow⟩, _⟩, _⟩
          exact absurd hrow (by simp)
        · rintro ⟨_, m, hm⟩
          exact absurd hm
            (ne_prefix_of_head 'N' 'D' _ _ rfl hpre (by decide) m)
      · rintro ⟨⟨⟨row, rs, hrow⟩, _⟩, _⟩
        exact absurd hrow (by simp)
    | cons row rs =>
      cases hsucc : pay.success with
      | false =>
        constructor
        · constructor
          · rintro ⟨⟨_, hpay⟩, _⟩
            simp only [hsucc] at hpay
            exact absurd hpay (by simp)
          · rintro ⟨_, m, hm⟩
            simp only [buy_carbon_credits, hsucc, Bool.false_eq_true, if_false] at hm
            exact absurd hm
              (ne_prefix_of_head 'P' 'D' _ _ rfl hpre (by decide) m)
        · rintro ⟨⟨_, hpay⟩, _⟩
          simp only [hsucc] at hpay
          exact absurd hpay (by simp)
      | true =>
        cases record with
        | returned b m =>
          cases b with
          | true =>
            constructor
            · constructor
              · rintro ⟨_, (⟨m', hm'⟩ | ⟨e', he'⟩)⟩
                · exact absurd hm' (by simp)
                · exact absurd he' (by simp)
              · rintro ⟨hst, _⟩
                simp only [buy_carbon_credits, hsucc, if_true] at hst
                exact absurd hst (by decide)
            · rintro ⟨_, (⟨m', hm'⟩ | ⟨e', he'⟩)⟩
              · exact absurd hm' (by simp)
              · exact absurd he' (by simp)
          | false =>
            constructor
            · constructor
              · intro _
                refine ⟨by simp [buy_carbon_credits, hsucc], m, ?_⟩
                simp [buy_carbon_credits, hsucc]
              · intro _
                exact ⟨⟨⟨row, rs, rfl⟩, hsucc⟩, Or.inl ⟨m, rfl⟩⟩
            · intro _
              simp only [buy_carbon_credits, hsucc, if_true]
              refine ⟨?_, ?_, ?_⟩
              · exact fun h => ne_prefix_of_head 'P' 'D' _ _ rfl hpre (by decide) m h.symm
              · exact fun h => ne_prefix_of_head 'N' 'D' _ _ rfl hpre (by decide) m h.symm
              · exact fun h => ne_prefix_of_head 'C' 'D' _ _ rfl hpre (by decide) m h.symm
        | raised e =>
          constructor
          · constructor
            · intro _
              refine ⟨by simp [buy_carbon_credits, hsucc], e, ?_⟩
              simp [buy_carbon_credits, hsucc]
            · intro _
              exact ⟨⟨⟨row, rs, rfl⟩, hsucc⟩, Or.inr ⟨e, rfl⟩⟩
          · intro _
            simp only [buy_carbon_credits, hsucc, if_true]
            refine ⟨?_, ?_, ?_⟩
            · exact fun h => ne_prefix_of_head 'P' 'D' _ _ rfl hpre (by decide) e h.symm
            · exact fun h => ne_prefix_of_head 'N' 'D' _ _ rfl hpre (by decide) e h.symm
            · exact fun h => ne_prefix_of_head 'C' 'D' _ _ rfl hpre (by decide) e h.symm

/-- A run in which the company resolves, the payment succeeds with a
transaction id, and the database recording returns failure. -/
def envPartial : BuyEnv :=
  ⟨.found [⟨7, "Acme", "0.0.7777", 10⟩],
   ⟨true, some "0.0.5001@1699999999.123456789"⟩,
   .returned false "insufficient db", "0.0.123456"⟩

/-- Witness for C1: on the concrete partial-failure run the result is the
distinct recording-failed state. -/
theorem buy_partial_failure_surfaced_witness :
    (buy_carbon_credits envPartial 3).1.status = "failed" ∧
    ∃ m, (buy_carbon_credits envPartial 3).1.message
      = "Database recording failed: " ++ m :=
  (buy_partial_failure_surfaced envPartial 3).1.mp
    ⟨⟨⟨⟨7, "Acme", "0.0.7777", 10⟩, [], rfl⟩, rfl⟩,
     Or.inl ⟨"insufficient db", rfl⟩⟩

/-- Substring search for "tx" in a character list. -/
def hasTxSub : List Char → Bool
  | 't' :: 'x' :: _ => true
  | _ :: rest => hasTxSub rest
  | [] => false

/-- Modelled from the spec: the whitespace-delimited tokens of a reply text
(the source has no such tokenizer; this renders the claimed mechanism). -/
def wsTokensAux : List Char → List Char → List (List Char)
  | [], acc => [acc.reverse]
  | c :: rest, acc =>
    if c = ' ' then acc.reverse :: wsTokensAux rest []
    else wsTokensAux rest (c :: acc)

/-- Whitespace-delimited tokens of a string. -/
def wsTokens (s : String) : List String :=
  (wsTokensAux s.data []).map (fun l => ⟨l⟩)

/-- A token "containing tx (case-insensitive)" in the claimed heuristic. -/
def tokenMentionsTx (t : String) : Bool := hasTxSub (lowerStr t).data

/-- Modelled from the spec: the claimed heuristic correlation-id extraction —
scan the unstructured reply text for a whitespace-delimited token containing
"tx" (case-insensitive), falling back to the memo when none is found.  The
source performs no such scan; this definition exists to compare the claim
against the code. -/
def scanTxToken (reply memo : String) : String :=
  ((wsTokens reply).find? tokenMentionsTx).getD memo

/-- Whatever the reply text, the claimed scan yields either a token
containing "tx" or the memo fallback — nothing else. -/
theorem scanTxToken_mentions_or_memo (reply memo : String) :
    tokenMentionsTx (scanTxToken reply memo) = true ∨ scanTxToken reply memo = memo := by
  unfold scanTxToken
  cases hf : (wsTokens reply).find? tokenMentionsTx with
  | none => exact Or.inr rfl
  | some t => exact Or.inl (by simpa using List.find?_some hf)

/-- A run whose payment reply carries a structured transaction id (the usual
Hedera id shape, containing no "tx" substring) and whose recording succeeds. -/
def envTxField : BuyEnv :=
  ⟨.found [⟨7, "Acme", "0.0.7777", 10⟩],
   ⟨true, some "0.0.5001@1699999999.123456789"⟩,
   .returned true "Purchase recorded", "0.0.123456"⟩

/-- C8 counterexample: the correlation id actually passed to the recording
step is the structured transaction_id field value, which neither contains
"tx" in any case (so no token scan could have produced it — by
`scanTxToken_mentions_or_memo` the claimed scan only ever yields a
tx-containing token or the memo) nor equals the memo fallback, refuting the
claimed extraction mechanism at this input. -/
theorem buy_txid_not_token_scan :
    (buy_carbon_credits envTxField 3).2.map RecordCall.paymentTxId
      = ["0.0.5001@1699999999.123456789"] ∧
    tokenMentionsTx "0.0.5001@1699999999.123456789" = false ∧
    "0.0.5001@1699999999.123456789" ≠ mkMemo 7 3 := by
  refine ⟨by decide, by decide, by decide⟩

/-- C8 (amended): the correlation identifier passed to the recording step is
the structured transaction_id field of the payment reply dict when present;
only when that field is absent is the memo string (which encodes company id
and quantity) reused as the correlation id.  No token scan of reply text
occurs. -/
theorem buy_txid_structured_field (env : BuyEnv) (amount : ℚ)
    (row : CompanyRow) (rs : List CompanyRow)
    (hres : env.resolve = .found (row :: rs))
    (hpay : env.pay.success = true) :
    (buy_carbon_credits env amount).2.map RecordCall.paymentTxId
      = [env.pay.transactionId.getD (mkMemo row.companyId amount)] ∧
    (env.pay.transactionId = none →
      (buy_carbon_credits env amount).2.map RecordCall.paymentTxId
        = [mkMemo row.companyId amount]) := by
  have key : ∀ rec, env.record = rec →
      (buy_carbon_credits env amount).2
        = [⟨row.companyId, env.buyer, amount,
            env.pay.transactionId.getD (mkMemo row.companyId amount)⟩] := by
    intro rec hrec
    cases rec with
    | returned b m =>
      cases b <;> simp [buy_carbon_credits, hres, hpay, hrec]
    | raised e => simp [buy_carbon_credits, hres, hpay, hrec]
  have k := key env.record rfl
  constructor
  · rw [k]; rfl
  · intro hn
    rw [k, hn]
    rfl

/-- Like `envTxField` but with no structured transaction id in the reply. -/
def envTxNone : BuyEnv :=
  ⟨.found [⟨7, "Acme", "0.0.7777", 10⟩], ⟨true, none⟩,
   .returned true "Purchase recorded", "0.0.123456"⟩

/-- Witness for the amended C8: with the structured field absent, the memo is
reused as the correlation id. -/
theorem buy_txid_structured_field_witness :
    (buy_carbon_credits envTxNone 3).2.map RecordCall.paymentTxId = [mkMemo 7 3] :=
  (buy_txid_structured_field envTxNone 3 ⟨7, "Acme", "0.0.7777", 10⟩ [] rfl rfl).2 rfl

/- ==========================================================================
   Section 4: utilities/carbon_marketplace/purchase.py purchase_credits
   over the autocommit connection of utilities/carbon_marketplace/db.py
   ========================================================================== -/

/-- One `company_credit` row (current_credit, offer_price, sold_credit);
`offer_price` is nullable. -/
structure CreditRow where
  currentCredit : ℚ
  offerPrice : Option ℚ
  soldCredit : ℚ
deriving DecidableEq

/-- One `credit_purchase` row as inserted by `purchase_credits`. -/
structure PurchaseRow where
  companyId : ℤ
  userAccount : String
  amount : ℚ
  pricePerCredit : ℚ
  totalPrice : ℚ
  paymentTxId : Option String
deriving DecidableEq

/-- The marketplace store: credits per company id plus the purchase table. -/
structure MarketDB where
  credits : List (ℤ × CreditRow)
  purchases : List PurchaseRow
deriving DecidableEq

/-- Row of `company_credit` for a company id. -/
def lookupCredit (db : MarketDB) (cid : ℤ) : Option CreditRow :=
  (db.credits.find? (fun p => p.1 == cid)).map Prod.snd

/-- The `SELECT current_credit, offer_price ... FOR UPDATE` statement.
`get_db_connection` sets `conn.autocommit = True` (db.py line 15), so every
statement is its own transaction and the FOR UPDATE row lock is released as
soon as this statement completes. -/
def selectCreditStmt (db : MarketDB) (cid : ℤ) : Option (ℚ × Option ℚ) :=
  (lookupCredit db cid).map fun r => (r.currentCredit, r.offerPrice)

/-- The `UPDATE company_credit SET current_credit = current_credit - amount,
sold_credit = sold_credit + amount` statement. -/
def updateBalancesStmt (db : MarketDB) (cid : ℤ) (amount : ℚ) : MarketDB :=
  ⟨db.credits.map (fun p =>
      if p.1 == cid then
        (p.1, ⟨p.2.currentCredit - amount, p.2.offerPrice, p.2.soldCredit + amount⟩)
      else p),
    db.purchases⟩

/-- The `INSERT INTO credit_purchase ...` statement
(`price_per_credit = offer_price or 0.00`, `total_price = price * amount`). -/
def insertPurchaseStmt (db : MarketDB) (cid : ℤ) (user : String) (amount : ℚ)
    (offerPrice : Option ℚ) (txId : Option String) : MarketDB :=
  ⟨db.credits,
    db.purchases ++ [⟨cid, user, amount, offerPrice.getD 0, offerPrice.getD 0 * amount, txId⟩]⟩

/-- The tail of `purchase_credits` after its SELECT statement returned `sel`:
check the fetched row, then run the UPDATE and the INSERT. -/
def purchaseTail (db : MarketDB) (cid : ℤ) (user : String) (amount : ℚ)
    (txId : Option String) (sel : Option (ℚ × Option ℚ)) : (Bool × String) × MarketDB :=
  match sel with
  | none => ((false, "Company credit not found"), db)
  | some (cc, price) =>
    if cc < amount then ((false, "Insufficient company credit"), db)
    else
      let db1 := updateBalancesStmt db cid amount
      let db2 := insertPurchaseStmt db1 cid user amount price txId
      ((true, "Purchase recorded"), db2)

/-- `purchase_credits(company_id, user_account, amount, payment_tx_id)` run
without interleaving. -/
def purchase_credits (db : MarketDB) (cid : ℤ) (user : String) (amount : ℚ)
    (txId : Option String) : (Bool × String) × MarketDB :=
  purchaseTail db cid user amount txId (selectCreditStmt db cid)

/-- Two concurrent `purchase_credits` calls for the same company, interleaved
so that both SELECT statements execute before either UPDATE.  This schedule
is admitted by the code because autocommit releases the FOR UPDATE lock at
the end of each SELECT; the second process therefore checks a stale
current_credit snapshot. -/
def purchaseRace (db : MarketDB) (cid : ℤ) (u1 u2 : String) (a1 a2 : ℚ)
    (t1 t2 : Option String) : ((Bool × String) × (Bool × String)) × MarketDB :=
  let sel1 := selectCreditStmt db cid
  let sel2 := selectCreditStmt db cid
  let out1 := purchaseTail db cid u1 a1 t1 sel1
  let out2 := purchaseTail out1.2 cid u2 a2 t2 sel2
  ((out1.1, out2.1), out2.2)

/-- A company with 100 available credits. -/
def dbOversell : MarketDB := ⟨[(1, ⟨100, some 10, 0⟩)], []⟩

/-- C7: under the autocommit connection the decrement-and-record is not
atomic: two racing purchases of 100 credits against a company holding 100
both pass the insufficiency check and both commit, driving current_credit to
-100 (an oversell), whereas the same two purchases run sequentially have the
second rejected with the insufficient-credit message and leave the store
unchanged by the failed call. -/
theorem purchase_credits_autocommit_oversell :
    ((purchaseRace dbOversell 1 "0.0.200" "0.0.201" 100 100 none none).1
      = ((true, "Purchase recorded"), (true, "Purchase recorded"))) ∧
    ((lookupCredit (purchaseRace dbOversell 1 "0.0.200" "0.0.201" 100 100 none none).2 1).map
      (fun r => r.currentCredit) = some (-100)) ∧
    ((purchase_credits (purchase_credits dbOversell 1 "0.0.200" 100 none).2
        1 "0.0.201" 100 none).1 = (false, "Insufficient company credit")) ∧
    ((purchase_credits (purchase_credits dbOversell 1 "0.0.200" 100 none).2
        1 "0.0.201" 100 none).2
      = (purchase_credits dbOversell 1 "0.0.200" 100 none).2) := by
  refine ⟨?_, ?_, ?_, ?_⟩ <;>
    norm_num [purchaseRace, purchaseTail, purchase_credits, selectCreditStmt,
      lookupCredit, updateBalancesStmt, insertPurchaseStmt, dbOversell, List.find?]

/- ==========================================================================
   Section 5: the task store (spec §3/§4.1) and the on_send_task handlers of
   prebooking_agent/task_manager.py and host_agent/orchestrator.py
   ========================================================================== -/

/-- Task status enum {SUBMITTED, WORKING, COMPLETED, FAILED} (spec §3). -/
inductive ATaskState where
  | submitted
  | working
  | completed
  | failed
deriving DecidableEq

/-- A Message: role plus text parts (each part reduced to its text). -/
structure AMessage where
  role : String
  parts : List String
deriving DecidableEq

/-- A Task record (`Task` itself names a core Lean type). -/
structure ATask where
  id : String
  sessionId : String
  status : ATaskState
  history : List AMessage
deriving DecidableEq

/-- `TaskSendParams` of a `tasks/send` request. -/
structure TaskSendParams where
  id : String
  sessionId : String
  message : AMessage
deriving DecidableEq

/-- The in-memory task store: id-keyed association list. -/
abbrev TaskStore := List (String × ATask)

/-- Fetch a task by id. -/
def storeLookup (s : TaskStore) (id : String) : Option ATask :=
  (s.find? (fun p => p.1 == id)).map Prod.snd

/-- Replace the task stored under `id`. -/
def storeSet (s : TaskStore) (id : String) (t : ATask) : TaskStore :=
  s.map (fun q => if q.1 == id then (id, t) else q)

/-- Modelled from the spec: `InMemoryTaskManager.upsert_task` lives in
`server/task_manager.py`, which is not under src/ (only its callers are);
§4.1 specifies it: given an incoming task id + initial user message, return
the existing Task if the id is already known (appending nothing), otherwise
create a new Task in SUBMITTED state with history = [user message]. -/
def upsert_task (store : TaskStore) (p : TaskSendParams) : ATask × TaskStore :=
  match storeLookup store p.id with
  | some t => (t, store)
  | none =>
    let t : ATask := ⟨p.id, p.sessionId, .submitted, [p.message]⟩
    (t, (p.id, t) :: store)

/-- The completion block shared by the handlers (step 5, under the lock):
set status COMPLETED and append the agent reply to the history. -/
def completeTask (store : TaskStore) (t : ATask) (replyText : String) :
    ATask × TaskStore :=
  let t' : ATask := ⟨t.id, t.sessionId, .completed, t.history ++ [⟨"agent", [replyText]⟩]⟩
  (t', storeSet store t.id t')

/-- The JSON-RPC response envelope {id, result}. -/
structure SendTaskResponse where
  id : String
  result : ATask
deriving DecidableEq

/-- `OrchestratorTaskManager.on_send_task`: upsert, read the user text,
invoke the agent, complete.  The method has no try/except, so a raised
processing error (`invokeResult = .error e`, e.g. a Gemini failure inside
`OrchestratorAgent.invoke`, whose `_handle_gemini_error` helper is never
called) propagates to the caller; the store keeps the mutations made before
the raise. -/
def orch_on_send_task (store : TaskStore) (reqId : String) (p : TaskSendParams)
    (invokeResult : Except String String) : Except String SendTaskResponse × TaskStore :=
  let out := upsert_task store p
  match p.message.parts with
  | [] => (.error "list index out of range", out.2)
  | _ :: _ =>
    match invokeResult with
    | .error e => (.error e, out.2)
    | .ok text =>
      let done := completeTask out.2 out.1 text
      (.ok ⟨reqId, done.1⟩, done.2)

/-- `nee` is an initial segment of the character list. -/
def leadsWith : List Char → List Char → Bool
  | _, [] => true
  | [], _ :: _ => false
  | h :: hs, n :: ns => h == n && leadsWith hs ns

/-- `nee` occurs as a contiguous subsequence of the character list
(Python `nee in hay`). -/
def containsSeq (nee : List Char) : List Char → Bool
  | [] => nee.isEmpty
  | c :: rest => leadsWith (c :: rest) nee || containsSeq nee rest

/-- Python `nee in hay` on strings. -/
def strContains (hay nee : String) : Bool := containsSeq nee.data hay.data

/-- The AttributeError raised when the except block of the prebooking task
manager calls `self.prebooking_agent._handle_gemini_error(e)`:
`PrebookingAgent` defines no such method (only `OrchestratorAgent` does). -/
def missingHandlerError : String :=
  "AttributeError: PrebookingAgent object has no attribute _handle_gemini_error"

/-- `PrebookingTaskManager.on_send_task`: the whole body is wrapped in
try/except.  On a raised error whose text contains "503" or (lower-cased)
"overloaded", the except block calls the nonexistent
`PrebookingAgent._handle_gemini_error`, so an AttributeError propagates; any
other raised error is converted into a COMPLETED task with an explanatory
reply. -/
def prebooking_on_send_task (store : TaskStore) (reqId : String) (p : TaskSendParams)
    (invokeResult : Except String String) : Except String SendTaskResponse × TaskStore :=
  let out := upsert_task store p
  match p.message.parts with
  | [] =>
    let done := completeTask out.2 out.1
      "An error occurred while processing your prebooking request: list index out of range"
    (.ok ⟨reqId, done.1⟩, done.2)
  | _ :: _ =>
    match invokeResult with
    | .ok text =>
      let done := completeTask out.2 out.1 text
      (.ok ⟨reqId, done.1⟩, done.2)
    | .error e =>
      if strContains e "503" || strContains (lowerStr e) "overloaded" then
        (.error missingHandlerError, out.2)
      else
        let done := completeTask out.2 out.1
          ("An error occurred while processing your prebooking request: " ++ e)
        (.ok ⟨reqId, done.1⟩, done.2)

/-- The request used to exercise the failing paths. -/
def pReq : TaskSendParams := ⟨"task-1", "sess-1", ⟨"user", ["prebook 2 credits from Acme"]⟩⟩

/-- C2: evaluation at the failing inputs.  An oracle overload error ("503")
makes the prebooking handler raise an AttributeError (the except block calls
a method `PrebookingAgent` does not define) and leaves the task SUBMITTED;
the orchestrator handler, having no try/except at all, propagates any raised
processing error and likewise leaves the task SUBMITTED.  A generic
(non-503) error in the prebooking handler is, by contrast, converted into a
COMPLETED task with an explanatory reply. -/
theorem on_send_task_escapes_terminal_state :
    (prebooking_on_send_task [] "req-1" pReq (.error "503 UNAVAILABLE")).1
      = .error missingHandlerError ∧
    ((storeLookup (prebooking_on_send_task [] "req-1" pReq (.error "503 UNAVAILABLE")).2
        "task-1").map ATask.status = some .submitted) ∧
    ((orch_on_send_task [] "req-1" pReq (.error "boom")).1 = .error "boom") ∧
    ((storeLookup (orch_on_send_task [] "req-1" pReq (.error "boom")).2
        "task-1").map ATask.status = some .submitted) ∧
    ((prebooking_on_send_task [] "req-1" pReq (.error "boom")).1
      = .ok ⟨"req-1", ⟨"task-1", "sess-1", .completed,
          [⟨"user", ["prebook 2 credits from Acme"]⟩,
           ⟨"agent", ["An error occurred while processing your prebooking request: boom"]⟩]⟩⟩) := by
  refine ⟨?_, ?_, ?_, ?_, ?_⟩ <;> rfl

/-- C4: upsert is idempotent on id, not on content: a second upsert with the
same id (whatever its message) returns the stored Task unchanged, appending
nothing, and an upsert of an unknown id creates a SUBMITTED task whose
history is exactly the triggering user message. -/
theorem upsert_task_idempotent_on_id (s : TaskStore) (p q : TaskSendParams)
    (hid : q.id = p.id) :
    (upsert_task (upsert_task s p).2 q).1 = (upsert_task s p).1 ∧
    (upsert_task (upsert_task s p).2 q).2 = (upsert_task s p).2 ∧
    (upsert_task (upsert_task s p).2 q).1.history = (upsert_task s p).1.history ∧
    (storeLookup s p.id = none →
      (upsert_task s p).1.status = .submitted ∧
      (upsert_task s p).1.history = [p.message]) := by
  rcases hst : upsert_task s p with ⟨t0, s0⟩
  have key : storeLookup s0 p.id = some t0 := by
    unfold upsert_task at hst
    cases hl : storeLookup s p.id with
    | some t =>
      rw [hl] at hst
      cases hst
      exact hl
    | none =>
      rw [hl] at hst
      cases hst
      simp [storeLookup, List.find?]
  have second : upsert_task s0 q = (t0, s0) := by
    unfold upsert_task
    rw [hid, key]
  dsimp only
  refine ⟨by rw [second], by rw [second], by rw [second], ?_⟩
  intro hnone
  unfold upsert_task at hst
  rw [hnone] at hst
  cases hst
  exact ⟨rfl, rfl⟩

/-- Witness for C4: a re-submitted id returns the first Task and store
unchanged even though the second message differs. -/
theorem upsert_task_idempotent_on_id_witness :
    (upsert_task (upsert_task [] pReq).2 ⟨"task-1", "sess-9", ⟨"user", ["other text"]⟩⟩).1
      = (upsert_task [] pReq).1 ∧
    (upsert_task [] pReq).1.status = .submitted ∧
    (upsert_task [] pReq).1.history = [⟨"user", ["prebook 2 credits from Acme"]⟩] := by
  have h := upsert_task_idempotent_on_id [] pReq
    ⟨"task-1", "sess-9", ⟨"user", ["other text"]⟩⟩ rfl
  exact ⟨h.1, (h.2.2.2 rfl).1, (h.2.2.2 rfl).2⟩

/- ==========================================================================
   Section 6: PrebookingAgent.create_prebooking / approve_prebooking
   (src/a2abackend/agents/prebooking_agent/agent.py, lines 510-742)
   ========================================================================== -/

/-- The configuration fields set in `PrebookingAgent.__init__`
(auto_approval_threshold = 300.0, prepayment_discount_rate = 0.05,
base_price_per_credit = 10.0). -/
structure PrebookingConfig where
  autoApprovalThreshold : ℚ
  prepaymentDiscountRate : ℚ
  basePricePerCredit : ℚ
deriving DecidableEq

/-- A `PrebookingRecord` dataclass instance. -/
structure PrebookingRecord where
  id : String
  companyName : String
  predictedCredits : ℚ
  actualCredits : Option ℚ
  prepaymentAmount : ℚ
  status : String
  createdAt : ℚ
  expiresAt : ℚ
  confidenceLevel : ℚ
  predictionSource : String
deriving DecidableEq

/-- Outcome of `_check_company_exists`. -/
inductive CompanyCheck where
  | notFound (message : String) (suggestions : List String)
  | foundAs (validatedName : String) (message : String)
deriving DecidableEq

/-- Outcome of `_process_payment` as read by the callers
(`payment_result.get("success", False)` and the transaction id). -/
structure PaymentOutcome where
  success : Bool
  transactionId : Option String
deriving DecidableEq

/-- External collaborators of one prebooking operation; `nowTag` is the
`strftime` timestamp used in ids, `nowTime` the numeric now (in hours) used
for expiry arithmetic. -/
structure PrebookEnv where
  companyCheck : CompanyCheck
  pay : PaymentOutcome
  nowTag : String
  nowTime : ℚ
deriving DecidableEq

/-- `company_name.replace(' ', '_')`. -/
def replaceSpaces (s : String) : String :=
  ⟨s.data.map (fun c => if c = ' ' then '_' else c)⟩

/-- `f"pb_{datetime.now().strftime('%Y%m%d_%H%M%S')}_{company_name.replace(' ', '_')}"`. -/
def mkPrebookingId (env : PrebookEnv) (companyName : String) : String :=
  "pb_" ++ env.nowTag ++ "_" ++ replaceSpaces companyName

/-- One `_process_payment(company_name, amount_usd, prebooking_id)` call. -/
structure PaymentCall where
  companyName : String
  amountUsd : ℚ
  prebookingId : String
deriving DecidableEq

/-- The `self.prebookings` dict. -/
abbrev PrebookStore := List (String × PrebookingRecord)

/-- Dict lookup in `self.prebookings`. -/
def pbLookup (st : PrebookStore) (id : String) : Option PrebookingRecord :=
  (st.find? (fun p => p.1 == id)).map Prod.snd

/-- Dict assignment `self.prebookings[id] = record`. -/
def storePut (st : PrebookStore) (id : String) (r : PrebookingRecord) : PrebookStore :=
  (id, r) :: st

/-- Python `str(float)` for the integral configuration constants appearing in
f-strings (e.g. `str(300.0) = "300.0"`); a stand-in rendering for other
rationals. -/
def floatStr (q : ℚ) : String :=
  if q.den == 1 then toString q.num ++ ".0" else toString q

/-- The result dict of the prebooking operations; keys absent from a branch
are `none` (`requiresApproval` is only set on the pending dict). -/
structure CreateResult where
  success : Bool
  status : Option String
  prebookingId : Option String
  companyName : Option String
  predictedCredits : Option ℚ
  prepaymentAmount : Option ℚ
  discountRate : Option ℚ
  expiresAt : Option ℚ
  requiresApproval : Bool
  errorMsg : Option String
  suggestions : List String
  message : Option String
deriving DecidableEq

/-- `PrebookingAgent._process_auto_approval`: store a confirmed record, call
`_process_payment`, downgrade to payment_failed when the payment reply is
unsuccessful.  The third component logs the payment calls made. -/
def process_auto_approval (cfg : PrebookingConfig) (env : PrebookEnv) (st : PrebookStore)
    (companyName : String) (predictedCredits prepaymentAmount timeHorizon : ℚ) :
    CreateResult × PrebookStore × List PaymentCall :=
  let pbId := mkPrebookingId env companyName
  let rec0 : PrebookingRecord :=
    ⟨pbId, companyName, predictedCredits, none, prepaymentAmount, "confirmed",
      env.nowTime, env.nowTime + timeHorizon, 85/100, "auto_approved"⟩
  let st1 := storePut st pbId rec0
  let call : PaymentCall := ⟨companyName, prepaymentAmount, pbId⟩
  if env.pay.success then
    (⟨true, some "auto_approved", some pbId, some companyName, some predictedCredits,
      some prepaymentAmount, some cfg.prepaymentDiscountRate,
      some (env.nowTime + timeHorizon), false, none, [],
      some ("Prebooking auto-approved and payment processed for " ++ companyName ++
        ". Amount $" ++ fmt2 prepaymentAmount ++ " is under $" ++
        floatStr cfg.autoApprovalThreshold ++ " threshold.")⟩,
      st1, [call])
  else
    let rec1 : PrebookingRecord :=
      ⟨pbId, companyName, predictedCredits, none, prepaymentAmount, "payment_failed",
        env.nowTime, env.nowTime + timeHorizon, 85/100, "auto_approved"⟩
    let st2 := storePut st1 pbId rec1
    (⟨false, some "payment_failed", some pbId, some companyName, some predictedCredits,
      some prepaymentAmount, none, none, false, some "Payment processing failed", [],
      some ("Prebooking created but payment failed for " ++ companyName ++
        ". Please try again or contact support.")⟩,
      st2, [call])

/-- `PrebookingAgent._request_user_approval`: store a pending_approval record
and return without calling the payment delegate. -/
def request_user_approval (cfg : PrebookingConfig) (env : PrebookEnv) (st : PrebookStore)
    (companyName : String) (predictedCredits prepaymentAmount timeHorizon : ℚ) :
    CreateResult × PrebookStore × List PaymentCall :=
  let pbId := mkPrebookingId env companyName
  let rec0 : PrebookingRecord :=
    ⟨pbId, companyName, predictedCredits, none, prepaymentAmount, "pending_approval",
      env.nowTime, env.nowTime + timeHorizon, 85/100, "user_approval_required"⟩
  let st1 := storePut st pbId rec0
  (⟨true, some "pending_approval", some pbId, some companyName, some predictedCredits,
    some prepaymentAmount, some cfg.prepaymentDiscountRate,
    some (env.nowTime + timeHorizon), true, none, [],
    some ("Prebooking requires user approval. Amount $" ++ fmt2 prepaymentAmount ++
      " exceeds $" ++ floatStr cfg.autoApprovalThreshold ++
      " threshold. Please confirm to proceed with payment.")⟩,
    st1, [])

/-- `PrebookingAgent.create_prebooking`: validate the company, compute
`prepayment = predicted_credits * base_price * (1 - discount_rate)`, then
gate on `prepayment < auto_approval_threshold` (strict less-than on the
auto-approval side). -/
def create_prebooking (cfg : PrebookingConfig) (env : PrebookEnv) (st : PrebookStore)
    (companyName : String) (predictedCredits timeHorizon : ℚ) :
    CreateResult × PrebookStore × List PaymentCall :=
  match env.companyCheck with
  | .notFound msg sugg =>
    (⟨false, none, none, none, none, none, none, none, false, some msg, sugg, none⟩,
      st, [])
  | .foundAs vname _ =>
    let basePrice := predictedCredits * cfg.basePricePerCredit
    let prepaymentAmount := basePrice * (1 - cfg.prepaymentDiscountRate)
    if prepaymentAmount < cfg.autoApprovalThreshold then
      process_auto_approval cfg env st vname predictedCredits prepaymentAmount timeHorizon
    else
      request_user_approval cfg env st vname predictedCredits prepaymentAmount timeHorizon

/-- `PrebookingAgent.approve_prebooking`: only a record in pending_approval
state triggers the payment call; the record then moves to confirmed or
payment_failed. -/
def approve_prebooking (cfg : PrebookingConfig) (env : PrebookEnv) (st : PrebookStore)
    (pbId : String) : CreateResult × PrebookStore × List PaymentCall :=
  match pbLookup st pbId with
  | none =>
    (⟨false, none, none, none, none, none, none, none, false,
      some "Prebooking not found", [],
      some ("No prebooking found with ID: " ++ pbId)⟩, st, [])
  | some pb =>
    if pb.status ≠ "pending_approval" then
      (⟨false, none, none, none, none, none, none, none, false,
        some "Prebooking not pending approval", [],
        some ("Prebooking " ++ pbId ++ " is not pending approval")⟩, st, [])
    else
      let call : PaymentCall := ⟨pb.companyName, pb.prepaymentAmount, pbId⟩
      if env.pay.success then
        let pb1 : PrebookingRecord :=
          ⟨pb.id, pb.companyName, pb.predictedCredits, pb.actualCredits,
            pb.prepaymentAmount, "confirmed", pb.createdAt, pb.expiresAt,
            pb.confidenceLevel, pb.predictionSource⟩
        (⟨true, some "confirmed", some pbId, some pb.companyName,
          some pb.predictedCredits, some pb.prepaymentAmount, none, none, false, none, [],
          some ("Prebooking approved and real HBAR payment processed for " ++
            pb.companyName ++ ". Transaction ID: " ++
            (env.pay.transactionId.getD "N/A"))⟩,
          storePut st pbId pb1, [call])
      else
        let pb1 : PrebookingRecord :=
          ⟨pb.id, pb.companyName, pb.predictedCredits, pb.actualCredits,
            pb.prepaymentAmount, "payment_failed", pb.createdAt, pb.expiresAt,
            pb.confidenceLevel, pb.predictionSource⟩
        (⟨false, some "payment_failed", some pbId, some pb.companyName,
          some pb.predictedCredits, some pb.prepaymentAmount, none, none, false,
          some "Payment processing failed", [],
          some ("Prebooking approved but payment failed for " ++ pb.companyName ++
            ". Please try again or contact support.")⟩,
          storePut st pbId pb1, [call])

/-- C3: for a validated company, the prepayment equals
q × base_price × (1 − discount_rate); strictly below the threshold the
auto-approval path runs and invokes the payment delegate, at or above it a
pending_approval record is stored and no payment call is made until a
separate approve_prebooking call, which then does invoke the delegate. -/
theorem create_prebooking_threshold_gate (cfg : PrebookingConfig) (env : PrebookEnv)
    (st : PrebookStore) (companyName vname vmsg : String) (q h : ℚ)
    (hfound : env.companyCheck = .foundAs vname vmsg) :
    ((create_prebooking cfg env st companyName q h).1.prepaymentAmount
      = some (q * cfg.basePricePerCredit * (1 - cfg.prepaymentDiscountRate))) ∧
    (q * cfg.basePricePerCredit * (1 - cfg.prepaymentDiscountRate)
        < cfg.autoApprovalThreshold →
      (create_prebooking cfg env st companyName q h).2.2
        = [⟨vname, q * cfg.basePricePerCredit * (1 - cfg.prepaymentDiscountRate),
            mkPrebookingId env vname⟩] ∧
      ((create_prebooking cfg env st companyName q h).1.status = some "auto_approved" ∨
       (create_prebooking cfg env st companyName q h).1.status = some "payment_failed")) ∧
    (cfg.autoApprovalThreshold
        ≤ q * cfg.basePricePerCredit * (1 - cfg.prepaymentDiscountRate) →
      (create_prebooking cfg env st companyName q h).2.2 = [] ∧
      (create_prebooking cfg env st companyName q h).1.status = some "pending_approval" ∧
      ((pbLookup (create_prebooking cfg env st companyName q h).2.1
          (mkPrebookingId env vname)).map PrebookingRecord.status
        = some "pending_approval") ∧
      ((approve_prebooking cfg env (create_prebooking cfg env st companyName q h).2.1
          (mkPrebookingId env vname)).2.2
        = [⟨vname, q * cfg.basePricePerCredit * (1 - cfg.prepaymentDiscountRate),
            mkPrebookingId env vname⟩])) := by
  by_cases hlt : q * cfg.basePricePerCredit * (1 - cfg.prepaymentDiscountRate)
      < cfg.autoApprovalThreshold
  · refine ⟨?_, fun _ => ⟨?_, ?_⟩, fun hge => absurd hlt (not_lt.mpr hge)⟩
    · cases hp : env.pay.success <;>
        simp [create_prebooking, hfound, hlt, process_auto_approval, hp]
    · cases hp : env.pay.success <;>
        simp [create_prebooking, hfound, hlt, process_auto_approval, hp]
    · cases hp : env.pay.success
      · exact Or.inr (by simp [create_prebooking, hfound, hlt, process_auto_approval, hp])
      · exact Or.inl (by simp [create_prebooking, hfound, hlt, process_auto_approval, hp])
  · refine ⟨?_, fun hlt' => absurd hlt' hlt, fun _ => ⟨?_, ?_, ?_, ?_⟩⟩
    · simp [create_prebooking, hfound, hlt, request_user_approval]
    · simp [create_prebooking, hfound, hlt, request_user_approval]
    · simp [create_prebooking, hfound, hlt, request_user_approval]
    · simp [create_prebooking, hfound, hlt, request_user_approval, pbLookup, storePut,
        List.find?]
    · cases hp : env.pay.success <;>
        simp [create_prebooking, hfound, hlt, request_user_approval, approve_prebooking,
          pbLookup, storePut, List.find?, hp]

/-- The default configuration of `PrebookingAgent.__init__`. -/
def cfg0 : PrebookingConfig := ⟨300, 0.05, 10⟩

/-- A validated company with a succeeding payment delegate. -/
def envPB : PrebookEnv :=
  ⟨.foundAs "GreenEarth" "registered", ⟨true, some "prebooking_tx_1"⟩,
    "20250101_000000", 0⟩

/-- Witness for C3: with d = 0.05 and p = $10, q = 5 gives $47.50 < $300 and
the auto path calls the payment delegate, while q = 70 gives $665.00 ≥ $300,
stores a pending_approval record and makes no payment call. -/
theorem create_prebooking_threshold_gate_witness :
    ((5 : ℚ) * 10 * (1 - 0.05) < 300) ∧
    ((create_prebooking cfg0 envPB [] "GreenEarth" 5 24).2.2
      = [⟨"GreenEarth", 5 * 10 * (1 - 0.05), mkPrebookingId envPB "GreenEarth"⟩]) ∧
    ((300 : ℚ) ≤ 70 * 10 * (1 - 0.05)) ∧
    ((create_prebooking cfg0 envPB [] "GreenEarth" 70 24).2.2 = []) ∧
    ((create_prebooking cfg0 envPB [] "GreenEarth" 70 24).1.status
      = some "pending_approval") := by
  have h5 := create_prebooking_threshold_gate cfg0 envPB [] "GreenEarth" "GreenEarth"
    "registered" 5 24 rfl
  have h70 := create_prebooking_threshold_gate cfg0 envPB [] "GreenEarth" "GreenEarth"
    "registered" 70 24 rfl
  have hlt : (5 : ℚ) * cfg0.basePricePerCredit * (1 - cfg0.prepaymentDiscountRate)
      < cfg0.autoApprovalThreshold := by
    show (5 : ℚ) * 10 * (1 - 0.05) < 300
    norm_num
  have hge : cfg0.autoApprovalThreshold
      ≤ (70 : ℚ) * cfg0.basePricePerCredit * (1 - cfg0.prepaymentDiscountRate) := by
    show (300 : ℚ) ≤ 70 * 10 * (1 - 0.05)
    norm_num
  refine ⟨by norm_num, ?_, by norm_num, (h70.2.2 hge).1, (h70.2.2 hge).2.1⟩
  exact (h5.2.1 hlt).1

/- ==========================================================================
   Section 7: OrchestratorAgent._delegate_task
   (src/a2abackend/agents/host_agent/orchestrator.py, lines 233-261)
   ========================================================================== -/

/-- One delegation actually sent to a child agent. -/
structure SendLog where
  agentName : String
  message : String
  sessionId : String
deriving DecidableEq

/-- `tool_context.state`: the per-turn session key-value scratch space. -/
abbrev SessState := List (String × String)

/-- Dict read from the tool context state. -/
def sessLookup (st : SessState) (k : String) : Option String :=
  (st.find? (fun p => p.1 == k)).map Prod.snd

/-- Dict write to the tool context state. -/
def sessInsert (st : SessState) (k v : String) : SessState := (k, v) :: st

/-- Extraction of the reply text from the child Task:
`history[-1].parts[0].text` when `len(history) > 1`, else `""` (a missing
part would raise in Python; `headD ""` stands in, unexercised here). -/
def replyTextOf (t : ATask) : String :=
  if 1 < t.history.length then
    (t.history.getLast?.map (fun m => m.parts.headD "")).getD ""
  else ""

/-- `OrchestratorAgent._delegate_task`: validate the agent name against the
connector registry (raising `ValueError("Unknown agent: ...")` for unknown
names before anything else), then reuse the session id stored under
"session_id" in the tool context state, generating and storing a fresh one
(`fresh`, modelling `str(uuid.uuid4())`) only when the key is absent, and
finally send the message through the connector (`childReply` is the remote
agent oracle).  The third component logs the delegation sends. -/
def delegate_task (connectors : List String)
    (childReply : String → String → String → ATask) (fresh : String)
    (agentName message : String) (st : SessState) :
    Except String String × SessState × List SendLog :=
  if agentName ∈ connectors then
    let sid :=
      match sessLookup st "session_id" with
      | some s => (s, st)
      | none => (fresh, sessInsert st "session_id" fresh)
    let t := childReply agentName message sid.1
    (.ok (replyTextOf t), sid.2, [⟨agentName, message, sid.1⟩])
  else
    (.error ("Unknown agent: " ++ agentName), st, [])

/-- The delegations of one reasoning turn, run in order; the oracle may
request several tool calls, each drawing its own fresh uuid `freshes i`. -/
def runDelegations (connectors : List String)
    (childReply : String → String → String → ATask) (freshes : ℕ → String) :
    ℕ → List (String × String) → SessState → SessState × List SendLog
  | _, [], st => (st, [])
  | i, (a, m) :: rest, st =>
    let out := delegate_task connectors childReply (freshes i) a m st
    let next := runDelegations connectors childReply freshes (i + 1) rest out.2.1
    (next.1, out.2.2 ++ next.2)

theorem runDelegations_with_session (connectors : List String)
    (childReply : String → String → String → ATask) (freshes : ℕ → String)
    (s : String) :
    ∀ (calls : List (String × String)) (i : ℕ) (st : SessState),
    sessLookup st "session_id" = some s →
    (∀ c ∈ calls, c.1 ∈ connectors) →
    ((runDelegations connectors childReply freshes i calls st).2.map SendLog.sessionId
      = List.replicate calls.length s) ∧
    sessLookup (runDelegations connectors childReply freshes i calls st).1 "session_id"
      = some s := by
  intro calls
  induction calls with
  | nil => intro i st hs _; exact ⟨rfl, hs⟩
  | cons c rest ih =>
    intro i st hs hall
    obtain ⟨a, m⟩ := c
    have hmem : a ∈ connectors := hall (a, m) (List.mem_cons_self _ _)
    have hrest : ∀ x ∈ rest, x.1 ∈ connectors :=
      fun x hx => hall x (List.mem_cons_of_mem _ hx)
    have hdel : delegate_task connectors childReply (freshes i) a m st
        = (.ok (replyTextOf (childReply a m s)), st, [⟨a, m, s⟩]) := by
      simp [delegate_task, hmem, hs]
    have ihr := ih (i + 1) st hs hrest
    simp only [runDelegations, hdel]
    exact ⟨by simp [ihr.1, List.replicate_succ], ihr.2⟩

/-- C9: within one reasoning turn the first delegated call generates one
fresh session id and stores it under the "session_id" key, and every
delegated call of the turn (to any child agent) uses exactly that id. -/
theorem delegate_task_single_session (connectors : List String)
    (childReply : String → String → String → ATask) (freshes : ℕ → String)
    (calls : List (String × String)) (st0 : SessState)
    (h0 : sessLookup st0 "session_id" = none)
    (hall : ∀ c ∈ calls, c.1 ∈ connectors) :
    ((runDelegations connectors childReply freshes 0 calls st0).2.map SendLog.sessionId
      = List.replicate calls.length (freshes 0)) ∧
    (calls ≠ [] →
      sessLookup (runDelegations connectors childReply freshes 0 calls st0).1 "session_id"
        = some (freshes 0)) := by
  cases calls with
  | nil => exact ⟨rfl, fun h => absurd rfl h⟩
  | cons c rest =>
    obtain ⟨a, m⟩ := c
    have hmem : a ∈ connectors := hall (a, m) (List.mem_cons_self _ _)
    have hrest : ∀ x ∈ rest, x.1 ∈ connectors :=
      fun x hx => hall x (List.mem_cons_of_mem _ hx)
    have hst1 : sessLookup (sessInsert st0 "session_id" (freshes 0)) "session_id"
        = some (freshes 0) := by
      simp [sessLookup, sessInsert, List.find?]
    have hdel : delegate_task connectors childReply (freshes 0) a m st0
        = (.ok (replyTextOf (childReply a m (freshes 0))),
           sessInsert st0 "session_id" (freshes 0), [⟨a, m, freshes 0⟩]) := by
      simp [delegate_task, hmem, h0]
    have ihr := runDelegations_with_session connectors childReply freshes (freshes 0)
      rest 1 (sessInsert st0 "session_id" (freshes 0)) hst1 hrest
    simp only [runDelegations, hdel]
    exact ⟨by simp [ihr.1, List.replicate_succ], fun _ => ihr.2⟩

/-- The discovered registry used by the concrete witnesses. -/
def connectors0 : List String := ["PaymentAgent", "CarbonCreditAgent"]

/-- A constant child-agent oracle for the witnesses. -/
def childReply0 : String → String → String → ATask :=
  fun _ _ _ => ⟨"child-task", "child-sess", .completed, []⟩

/-- Witness for C9: two delegated calls to two different child agents in one
turn both use the uuid drawn by the first call, and that uuid is stored in
the session state. -/
theorem delegate_task_single_session_witness :
    ((runDelegations connectors0 childReply0 (fun i => "uuid-" ++ toString i) 0
        [("PaymentAgent", "buy 5 credits"), ("CarbonCreditAgent", "record purchase")]
        []).2.map SendLog.sessionId = List.replicate 2 "uuid-0") ∧
    (sessLookup (runDelegations connectors0 childReply0 (fun i => "uuid-" ++ toString i) 0
        [("PaymentAgent", "buy 5 credits"), ("CarbonCreditAgent", "record purchase")]
        []).1 "session_id" = some "uuid-0") := by
  have h := delegate_task_single_session connectors0 childReply0
    (fun i => "uuid-" ++ toString i)
    [("PaymentAgent", "buy 5 credits"), ("CarbonCreditAgent", "record purchase")] []
    rfl (by decide)
  exact ⟨h.1, h.2 (by decide)⟩

/-- C10: a delegation to an agent name absent from the connector registry
raises `ValueError("Unknown agent: ...")` before any session id is created
or any send occurs: the session state is unchanged and the send log empty. -/
theorem delegate_task_unknown_agent (connectors : List String)
    (childReply : String → String → String → ATask) (fresh agentName message : String)
    (st : SessState) (h : agentName ∉ connectors) :
    delegate_task connectors childReply fresh agentName message st
      = (.error ("Unknown agent: " ++ agentName), st, []) := by
  simp [delegate_task, h]

/-- Witness for C10: delegating to an undiscovered agent name fails without
touching the session state. -/
theorem delegate_task_unknown_agent_witness :
    delegate_task connectors0 childReply0 "uuid-0" "AutomationAgent" "run rules" []
      = (.error "Unknown agent: AutomationAgent", [], []) :=
  delegate_task_unknown_agent connectors0 childReply0 "uuid-0" "AutomationAgent"
    "run rules" [] (by decide)
